import Mathlib

/-!
Verification of the NEWS-file manipulation core of the `releaser` repository
(`disperse/news_file.py`).  Lines of the changelog document are modelled as
lists of characters (`Line`); the document itself is a list of lines, as
produced by the Tree collaborator's `get_file_lines`.  Each Python function is
translated into an executable Lean definition; exceptions become `Except`
values, and the Tree read/write interaction is modelled as an explicit event
trace.
-/

/-- A raw text line of the changelog document (Python byte-string). -/
abbrev Line := List Char

instance {ε α : Type} [DecidableEq ε] [DecidableEq α] : DecidableEq (Except ε α) :=
  fun x y =>
    match x, y with
    | .ok a, .ok b =>
      if h : a = b then .isTrue (by rw [h])
      else .isFalse (by intro hc; cases hc; exact h rfl)
    | .error a, .error b =>
      if h : a = b then .isTrue (by rw [h])
      else .isFalse (by intro hc; cases hc; exact h rfl)
    | .ok _, .error _ => .isFalse (by intro hc; cases hc)
    | .error _, .ok _ => .isFalse (by intro hc; cases hc)

/-- ASCII whitespace as recognised by Python `bytes.strip()`. -/
def isPySpace (c : Char) : Bool :=
  c == ' ' || c == '\t' || c == '\n' || c == '\r' || c == '\x0b' || c == '\x0c'

/-- Python `bytes.strip()`: remove leading and trailing ASCII whitespace. -/
def strip (l : Line) : Line :=
  ((l.dropWhile isPySpace).reverse.dropWhile isPySpace).reverse

/-- Python `s.split(sep, 1)` when `sep` occurs in `s`: the part before the
first occurrence of `sep` and the part after it. -/
def splitFirst (sep : Char) : Line → Line × Line
  | [] => ([], [])
  | c :: rest =>
    if c = sep then ([], rest)
    else
      let p := splitFirst sep rest
      (c :: p.1, p.2)

/-- The digits-and-dots pattern `re.fullmatch(r'[0-9\.]+', v)`. -/
def versionPattern (v : Line) : Bool :=
  !v.isEmpty && v.all (fun c => c.isDigit || c == '.')

/-- `check_version` from the source: sentinels give `True`, a digits-and-dots
version gives `False`, anything else raises `OddVersion(v)` (here: `.error v`). -/
def check_version (v : Line) : Except Line Bool :=
  if v == "UNRELEASED".data || v == "%(version)s".data then .ok true
  else if versionPattern v then .ok false
  else .error v

/-- `check_date` from the source: only the literal `UNRELEASED` is pending. -/
def check_date (d : Line) : Bool :=
  d == "UNRELEASED".data

/-- The tab-separated reconstruction template stored by the parser. -/
def tabTemplate : Line := "%(version)s\t%(date)s".data

/-- The plain space-separated reconstruction template stored by the parser. -/
def spaceTemplate : Line := "%(version)s %(date)s".data

/-- The parenthesized-date reconstruction template stored by the parser. -/
def parenTemplate : Line := "%(version)s (%(date)s)".data

/-- The version-only reconstruction template stored by the parser. -/
def bareTemplate : Line := "%(version)s".data

/-- Python `%`-formatting restricted to the keys used by the templates above:
replace every occurrence of `%(version)s` by `v` and of `%(date)s` by `d`. -/
def render (v d : Line) : Line → Line
  | '%' :: '(' :: 'v' :: 'e' :: 'r' :: 's' :: 'i' :: 'o' :: 'n' :: ')' :: 's' :: rest =>
      v ++ render v d rest
  | '%' :: '(' :: 'd' :: 'a' :: 't' :: 'e' :: ')' :: 's' :: rest =>
      d ++ render v d rest
  | c :: rest => c :: render v d rest
  | [] => []

/-- The result of `parse_version_line`: version, optional date, the
reconstruction template, and the pending flag. -/
structure ParsedLine where
  version : Line
  date : Option Line
  line_format : Line
  pending : Bool
deriving Repr, DecidableEq

/-- `parse_version_line` from the source.  A raised `OddVersion(v)` becomes
`.error v`. -/
def parse_version_line (line : Line) : Except Line ParsedLine :=
  let s := strip line
  if s.contains '\t' then
    let p := splitFirst '\t' s
    match check_version p.1 with
    | .error v => .error v
    | .ok b => .ok ⟨p.1, some p.2, tabTemplate, b || check_date p.2⟩
  else if s.contains ' ' then
    let p := splitFirst ' ' s
    match check_version p.1 with
    | .error v => .error v
    | .ok b =>
      let pending := b || check_date ((p.2.drop 1).dropLast)
      if p.2.head? == some '(' && p.2.getLast? == some ')' then
        .ok ⟨p.1, some ((p.2.drop 1).dropLast), parenTemplate, pending⟩
      else
        .ok ⟨p.1, some p.2, spaceTemplate, pending⟩
  else
    match check_version s with
    | .error v => .error v
    | .ok b => .ok ⟨s, none, bareTemplate, b⟩

/-- The `while not lines[i].strip(): i += 1` loop of `skip_header`, acting on
the suffix `lines.drop i`; `none` models an IndexError (running off the end). -/
def skip_blanks : List Line → Nat → Option Nat
  | [], _ => none
  | l :: rest, i => if (strip l).isEmpty then skip_blanks rest (i + 1) else some i

/-- `skip_header` from the source; `none` models an IndexError. -/
def skip_header (lines : List Line) : Option Nat :=
  match lines with
  | [] => none
  | l0 :: rest =>
    if ("Changelog for ".data).isPrefixOf l0 then
      match rest with
      | [] => none
      | l1 :: _ =>
        if ("======".data).isPrefixOf l1 then
          skip_blanks (lines.drop 2) 2
        else
          skip_blanks (lines.drop 1) 1
    else some 0

/-- The typed failure conditions of the operations.  `indexError` models the
out-of-range document accesses that the spec leaves as fail-fast. -/
inductive NewsError where
  | noUnreleasedChanges
  | assertionError (version expected : Line)
  | pendingExists (version : Line) (date : Option Line)
  | oddVersion (v : Line)
  | indexError
deriving Repr, DecidableEq

/-- A calendar date, as passed to `news_mark_released`. -/
structure PDate where
  year : Nat
  month : Nat
  day : Nat
deriving Repr, DecidableEq

/-- Zero-pad the decimal digits of `n` to width `w`. -/
def padNum (w n : Nat) : Line :=
  let s := Nat.toDigits 10 n
  List.replicate (w - s.length) '0' ++ s

/-- `release_date.strftime("%Y-%m-%d")`. -/
def strftimeYmd (dt : PDate) : Line :=
  padNum 4 dt.year ++ '-' :: (padNum 2 dt.month ++ '-' :: padNum 2 dt.day)

/-- The per-line test of the change-block loop in `news_mark_released`:
`not line.strip() or line.startswith(b' ') or line.startswith(b'\t')`. -/
def isChangeLine (l : Line) : Bool :=
  (strip l).isEmpty || l.head? == some ' ' || l.head? == some '\t'

/-- `news_mark_released` from the source: on success it returns the new list
of document lines together with the accumulated change text. -/
def news_mark_released (lines : List Line) (expected_version : Line)
    (release_date : PDate) : Except NewsError (List Line × Line) :=
  match skip_header lines with
  | none => .error .indexError
  | some i =>
    match lines[i]? with
    | none => .error .indexError
    | some li =>
      match parse_version_line li with
      | .error v => .error (.oddVersion v)
      | .ok pl =>
        if !pl.pending then .error .noUnreleasedChanges
        else if expected_version == pl.version then
          let change_lines := (lines.drop (i + 1)).takeWhile isChangeLine
          let newLine := render pl.version (strftimeYmd release_date) pl.line_format ++ ['\n']
          .ok (lines.set i newLine, change_lines.flatten)
        else .error (.assertionError pl.version expected_version)

/-- `news_add_pending` from the source: on success it returns the new list of
document lines (two lines inserted in front of the leading header). -/
def news_add_pending (lines : List Line) (new_version : Line) :
    Except NewsError (List Line) :=
  match skip_header lines with
  | none => .error .indexError
  | some i =>
    match lines[i]? with
    | none => .error .indexError
    | some li =>
      match parse_version_line li with
      | .error v => .error (.oddVersion v)
      | .ok pl =>
        if pl.pending then .error (.pendingExists pl.version pl.date)
        else
          let newLine := render new_version ("UNRELEASED".data) pl.line_format ++ ['\n']
          .ok (lines.take i ++ newLine :: ['\n'] :: lines.drop i)

/-- `news_find_pending` from the source. -/
def news_find_pending (lines : List Line) : Except NewsError Line :=
  match skip_header lines with
  | none => .error .indexError
  | some i =>
    match lines[i]? with
    | none => .error .indexError
    | some li =>
      match parse_version_line li with
      | .error v => .error (.oddVersion v)
      | .ok pl =>
        if pl.pending then .ok pl.version else .error .noUnreleasedChanges

/-- `NewsFile.validate` from the source: call `find_pending` and swallow only
`NoUnreleasedChanges`. -/
def validate (lines : List Line) : Except NewsError Unit :=
  match news_find_pending lines with
  | .ok _ => .ok ()
  | .error .noUnreleasedChanges => .ok ()
  | .error e => .error e

/-- An interaction with the Tree collaborator: a whole-file read, or a
whole-file non-atomic write of the joined line bytes. -/
inductive TreeOp where
  | read (path : String)
  | write (path : String) (content : Line)
deriving Repr, DecidableEq

/-- Whether a Tree interaction is a write. -/
def isWrite : TreeOp → Bool
  | .write _ _ => true
  | .read _ => false

/-- Replay a trace of Tree interactions over an initial file content. -/
def applyTrace (content : Line) : List TreeOp → Line
  | [] => content
  | .read _ :: rest => applyTrace content rest
  | .write _ c :: rest => applyTrace c rest

/-- The Tree interactions performed by `news_mark_released`: the initial read,
then — only when every precondition passed — the single write-back of the
joined modified lines. -/
def markReleasedOps (path : String) (lines : List Line) (expected_version : Line)
    (release_date : PDate) : List TreeOp :=
  TreeOp.read path ::
    match news_mark_released lines expected_version release_date with
    | .ok (ls, _) => [TreeOp.write path ls.flatten]
    | .error _ => []

/-- The Tree interactions performed by `news_add_pending`. -/
def addPendingOps (path : String) (lines : List Line) (new_version : Line) :
    List TreeOp :=
  TreeOp.read path ::
    match news_add_pending lines new_version with
    | .ok ls => [TreeOp.write path ls.flatten]
    | .error _ => []

/-- The Tree interactions performed by `news_find_pending`: only the read. -/
def findPendingOps (path : String) (_lines : List Line) : List TreeOp :=
  [TreeOp.read path]

/-- The Tree interactions performed by `NewsFile.validate`: only the read
performed by the inner `find_pending`. -/
def validateOps (path : String) (_lines : List Line) : List TreeOp :=
  [TreeOp.read path]

/-- The version token of a header line: the text before the first separator,
under the same tokenizing rules as `parse_version_line`. -/
def version_token (line : Line) : Line :=
  let s := strip line
  if s.contains '\t' then (splitFirst '\t' s).1
  else if s.contains ' ' then (splitFirst ' ' s).1
  else s

/-! ## Helper lemmas about the grammar's building blocks -/

theorem render_tab (v d : Line) : render v d tabTemplate = v ++ '\t' :: d := by
  have h : render v d tabTemplate = v ++ '\t' :: (d ++ []) := rfl
  simpa using h

theorem render_space (v d : Line) : render v d spaceTemplate = v ++ ' ' :: d := by
  have h : render v d spaceTemplate = v ++ ' ' :: (d ++ []) := rfl
  simpa using h

theorem render_paren (v d : Line) :
    render v d parenTemplate = v ++ ' ' :: '(' :: (d ++ [')']) := by
  have h : render v d parenTemplate = v ++ ' ' :: '(' :: (d ++ ')' :: []) := rfl
  simpa using h

theorem render_bare (v d : Line) : render v d bareTemplate = v := by
  have h : render v d bareTemplate = v ++ [] := rfl
  simpa using h

theorem splitFirst_reconstruct (sep : Char) (s : Line) (h : sep ∈ s) :
    (splitFirst sep s).1 ++ sep :: (splitFirst sep s).2 = s := by
  induction s with
  | nil => cases h
  | cons c rest ih =>
    by_cases hc : c = sep
    · subst hc; simp [splitFirst]
    · have hr : sep ∈ rest := by
        rcases List.mem_cons.mp h with h1 | h1
        · exact absurd h1.symm hc
        · exact h1
      simp [splitFirst, hc, ih hr]

theorem paren_decomp (d : Line) (h1 : d.head? = some '(') (h2 : d.getLast? = some ')') :
    '(' :: ((d.drop 1).dropLast ++ [')']) = d := by
  cases d with
  | nil => cases h1
  | cons c rest =>
    have hc : c = '(' := by simpa using h1
    subst hc
    cases rest with
    | nil => simp [List.getLast?] at h2
    | cons y ys =>
      have hne : (y :: ys) ≠ ([] : Line) := by simp
      have h3 : (y :: ys).getLast hne = ')' := by
        have h4 : (y :: ys).getLast? = some ')' := by
          simpa [List.getLast?_cons_cons] using h2
        have h5 := List.getLast?_eq_getLast (y :: ys) hne
        rw [h5] at h4
        simpa using h4
      have h6 := List.dropLast_append_getLast hne
      rw [h3] at h6
      simpa using congrArg (List.cons '(') h6

/-! ## Claim theorems -/

/-- C1: the spec says that for digits-and-dots versions `is_pending` is true
exactly when the date field equals `UNRELEASED`, in all three line shapes.
The code violates this for the plain space-separated shape: on the header
line `"1.3.0 UNRELEASED\n"` the parser stores the date `UNRELEASED` yet
classifies the entry as not pending, because the pending check is applied to
`date[1:-1]` (here `NRELEASE`) even when the date is not parenthesized. -/
theorem c1_space_separated_unreleased_not_pending :
    parse_version_line ("1.3.0 UNRELEASED\n".data) =
      .ok ⟨"1.3.0".data, some ("UNRELEASED".data), spaceTemplate, false⟩ ∧
    check_date ("UNRELEASED".data) = true ∧
    parse_version_line ("1.3.0\tUNRELEASED\n".data) =
      .ok ⟨"1.3.0".data, some ("UNRELEASED".data), tabTemplate, true⟩ := by decide

/-- C2: the spec says `add_pending` on a document whose leading line is
`"1.3.0 UNRELEASED\n"` fails with `PendingExists("1.3.0", "UNRELEASED")`.  The
code instead classifies that leading entry as not pending (same `date[1:-1]`
slip as in C1) and inserts a new pending entry on top of it. -/
theorem c2_add_pending_stacks_pending_entries :
    news_add_pending ["1.3.0 UNRELEASED\n".data] ("1.4.0".data) =
      .ok ["1.4.0 UNRELEASED\n".data, "\n".data, "1.3.0 UNRELEASED\n".data] ∧
    news_add_pending ["1.3.0 UNRELEASED\n".data] ("1.4.0".data) ≠
      .error (.pendingExists ("1.3.0".data) (some ("UNRELEASED".data))) := by decide

/-- C3 counterexample: the claim says the new header is always rendered from
the plain two-field template, so `add_pending` on `["1.2.3 (2024-05-01)\n"]`
would yield the new line `"1.3.0 UNRELEASED\n"`.  The code renders the stored
template of the existing leading entry instead, producing
`"1.3.0 (UNRELEASED)\n"`. -/
theorem c3_counterexample :
    news_add_pending ["1.2.3 (2024-05-01)\n".data] ("1.3.0".data) ≠
      .ok ["1.3.0 UNRELEASED\n".data, "\n".data, "1.2.3 (2024-05-01)\n".data] := by decide

/-- C3 (amended): for every document whose leading entry is not pending,
`add_pending` inserts exactly two lines before the leading header — a header
rendered from the *existing leading entry's* reconstruction template with the
new version and the date `UNRELEASED`, followed by one blank line. -/
theorem c3_add_pending_renders_existing_template
    (lines : List Line) (new_version li : Line) (i : Nat) (pl : ParsedLine)
    (h1 : skip_header lines = some i)
    (h2 : lines[i]? = some li)
    (h3 : parse_version_line li = .ok pl)
    (h4 : pl.pending = false) :
    news_add_pending lines new_version =
      .ok (lines.take i ++
        (render new_version ("UNRELEASED".data) pl.line_format ++ ['\n']) :: ['\n'] ::
        lines.drop i) := by
  simp only [news_add_pending, h1, h2, h3, h4]
  simp

/-- C3 witness: the amended statement at the concrete document
`["1.2.3 (2024-05-01)\n"]`. -/
theorem c3_amended_witness :
    news_add_pending ["1.2.3 (2024-05-01)\n".data] ("1.3.0".data) =
      .ok ["1.3.0 (UNRELEASED)\n".data, "\n".data, "1.2.3 (2024-05-01)\n".data] :=
  (c3_add_pending_renders_existing_template ["1.2.3 (2024-05-01)\n".data] ("1.3.0".data)
      ("1.2.3 (2024-05-01)\n".data) 0
      ⟨"1.2.3".data, some ("2024-05-01".data), parenTemplate, false⟩
      (by decide) (by decide) (by decide) rfl).trans (by decide)

/-- C4 counterexample: the claim says re-rendering the stored template with
the parsed fields reproduces the original header line byte for byte.  For the
accepted line `"1.2.3\t2024-05-01\n"` the re-rendered text lacks the trailing
newline (the parser tokenizes the *stripped* line), so it differs from the
original line. -/
theorem c4_counterexample :
    parse_version_line ("1.2.3\t2024-05-01\n".data) =
      .ok ⟨"1.2.3".data, some ("2024-05-01".data), tabTemplate, false⟩ ∧
    render ("1.2.3".data) ("2024-05-01".data) tabTemplate ≠
      "1.2.3\t2024-05-01\n".data := by decide

/-- C4 (amended): for every header line accepted by `parse_version_line`,
re-rendering the returned reconstruction template with the parsed version and
date reproduces the original line with surrounding whitespace (including the
trailing newline) stripped, byte for byte. -/
theorem c4_render_roundtrip (line : Line) (pl : ParsedLine)
    (h : parse_version_line line = .ok pl) :
    render pl.version (pl.date.getD []) pl.line_format = strip line := by
  simp only [parse_version_line] at h
  by_cases ht : (strip line).contains '\t' = true
  · rw [if_pos ht] at h
    cases hv : check_version (splitFirst '\t' (strip line)).1 with
    | error v => rw [hv] at h; simp at h
    | ok b =>
      rw [hv] at h
      simp only [Except.ok.injEq] at h
      subst h
      simp only [Option.getD_some]
      rw [render_tab]
      exact splitFirst_reconstruct '\t' (strip line) (by simpa using ht)
  · rw [if_neg ht] at h
    by_cases hs : (strip line).contains ' ' = true
    · rw [if_pos hs] at h
      cases hv : check_version (splitFirst ' ' (strip line)).1 with
      | error v => rw [hv] at h; simp at h
      | ok b =>
        rw [hv] at h
        cases hpar : ((splitFirst ' ' (strip line)).2.head? == some '(' &&
            (splitFirst ' ' (strip line)).2.getLast? == some ')') with
        | true =>
          simp only [hpar, if_true, Except.ok.injEq] at h
          subst h
          simp only [Option.getD_some]
          rw [render_paren]
          simp only [Bool.and_eq_true, beq_iff_eq] at hpar
          rw [paren_decomp _ hpar.1 hpar.2]
          exact splitFirst_reconstruct ' ' (strip line) (by simpa using hs)
        | false =>
          simp only [hpar, Bool.false_eq_true, if_false, Except.ok.injEq] at h
          subst h
          simp only [Option.getD_some]
          rw [render_space]
          exact splitFirst_reconstruct ' ' (strip line) (by simpa using hs)
    · rw [if_neg hs] at h
      cases hv : check_version (strip line) with
      | error v => rw [hv] at h; simp at h
      | ok b =>
        rw [hv] at h
        simp only [Except.ok.injEq] at h
        subst h
        simp only [Option.getD_none]
        exact render_bare (strip line) []

/-- C4 witness: the amended round-trip at the concrete accepted header line
`"1.2.3\t2024-05-01\n"`. -/
theorem c4_roundtrip_witness :
    render ("1.2.3".data) ("2024-05-01".data) tabTemplate =
      strip ("1.2.3\t2024-05-01\n".data) := by
  have h := c4_render_roundtrip ("1.2.3\t2024-05-01\n".data)
      ⟨"1.2.3".data, some ("2024-05-01".data), tabTemplate, false⟩ (by decide)
  simpa using h

/-- C5: when the leading entry is pending and its version equals the expected
version, `mark_released` rewrites the header line by substituting the version
and the `YYYY-MM-DD`-formatted release date into the stored template, and
returns the concatenation of the contiguous run of blank or space/tab-initial
lines following the header. -/
theorem c5_mark_released_rewrites_header
    (lines : List Line) (li ev : Line) (rd : PDate) (i : Nat) (pl : ParsedLine)
    (h1 : skip_header lines = some i)
    (h2 : lines[i]? = some li)
    (h3 : parse_version_line li = .ok pl)
    (h4 : pl.pending = true)
    (h5 : ev = pl.version) :
    news_mark_released lines ev rd =
      .ok (lines.set i (render pl.version (strftimeYmd rd) pl.line_format ++ ['\n']),
        ((lines.drop (i + 1)).takeWhile isChangeLine).flatten) := by
  simp only [news_mark_released, h1, h2, h3, h4, h5]
  simp

/-- C5 witness: on `["1.2.3\tUNRELEASED\n", "  Fixed bug.\n", "\n"]` with
expected version `1.2.3` and release date 2024-05-01, the header becomes
`"1.2.3\t2024-05-01\n"` and the returned text is `"  Fixed bug.\n\n"`. -/
theorem c5_mark_released_witness :
    news_mark_released ["1.2.3\tUNRELEASED\n".data, "  Fixed bug.\n".data, "\n".data]
        ("1.2.3".data) ⟨2024, 5, 1⟩ =
      .ok (["1.2.3\t2024-05-01\n".data, "  Fixed bug.\n".data, "\n".data],
        "  Fixed bug.\n\n".data) :=
  (c5_mark_released_rewrites_header
      ["1.2.3\tUNRELEASED\n".data, "  Fixed bug.\n".data, "\n".data]
      ("1.2.3\tUNRELEASED\n".data) ("1.2.3".data) ⟨2024, 5, 1⟩ 0
      ⟨"1.2.3".data, some ("UNRELEASED".data), tabTemplate, true⟩
      (by decide) (by decide) (by decide) rfl rfl).trans (by decide)

/-- C6: on success, `mark_released` keeps the line count and changes only the
single header line at the skip-header index, and `add_pending` grows the
document by exactly two lines inserted at the skip-header index, leaving the
bytes of every pre-existing line unchanged. -/
theorem c6_frame_effects
    (l1 l2 out1 out2 : List Line) (notes ev nv : Line) (rd : PDate)
    (hm : news_mark_released l1 ev rd = .ok (out1, notes))
    (ha : news_add_pending l2 nv = .ok out2) :
    (out1.length = l1.length ∧
      ∃ i nl, skip_header l1 = some i ∧ out1 = l1.set i nl ∧
        ∀ j, j ≠ i → out1[j]? = l1[j]?) ∧
    (out2.length = l2.length + 2 ∧
      ∃ i ins, skip_header l2 = some i ∧ List.length ins = 2 ∧
        out2 = l2.take i ++ ins ++ l2.drop i ∧
        (∀ j, j < i → out2[j]? = l2[j]?) ∧
        (∀ j, i ≤ j → out2[j + 2]? = l2[j]?)) := by
  constructor
  · unfold news_mark_released at hm
    split at hm
    · simp at hm
    · rename_i i hsk
      split at hm
      · simp at hm
      · rename_i li hget
        split at hm
        · simp at hm
        · rename_i pl hp
          split at hm
          · simp at hm
          · split at hm
            · simp only [Except.ok.injEq, Prod.mk.injEq] at hm
              obtain ⟨ho, -⟩ := hm
              subst ho
              refine ⟨by simp, i, _, hsk, rfl, ?_⟩
              intro j hj
              exact List.getElem?_set_ne (Ne.symm hj)
            · simp at hm
  · unfold news_add_pending at ha
    split at ha
    · simp at ha
    · rename_i i hsk
      split at ha
      · simp at ha
      · rename_i li hget
        split at ha
        · simp at ha
        · rename_i pl hp
          split at ha
          · simp at ha
          · simp only [Except.ok.injEq] at ha
            subst ha
            have hlen : i < l2.length := (List.getElem?_eq_some.mp hget).1
            have htl : (l2.take i).length = i := by
              rw [List.length_take]; omega
            refine ⟨?_, i,
              [render nv ("UNRELEASED".data) pl.line_format ++ ['\n'], ['\n']],
              hsk, rfl, by simp, ?_, ?_⟩
            · simp [List.length_take, List.length_drop]
              omega
            · intro j hj
              rw [List.getElem?_append_left (by rw [htl]; omega)]
              exact List.getElem?_take_of_lt hj
            · intro j hij
              rw [List.getElem?_append_right (by rw [htl]; omega), htl]
              have h2 : j + 2 - i = (j - i) + 1 + 1 := by omega
              rw [h2, List.getElem?_cons_succ, List.getElem?_cons_succ,
                List.getElem?_drop]
              have h3 : i + (j - i) = j := by omega
              rw [h3]

/-- C6 witness: the frame facts at a concrete successful `mark_released` call
and a concrete successful `add_pending` call. -/
theorem c6_frame_effects_witness :
    ((["1.2.3\t2024-05-01\n".data, "  Fixed bug.\n".data, "\n".data] : List Line).length =
        (["1.2.3\tUNRELEASED\n".data, "  Fixed bug.\n".data, "\n".data] : List Line).length ∧
      ∃ i nl, skip_header ["1.2.3\tUNRELEASED\n".data, "  Fixed bug.\n".data, "\n".data] = some i ∧
        ["1.2.3\t2024-05-01\n".data, "  Fixed bug.\n".data, "\n".data] =
          (["1.2.3\tUNRELEASED\n".data, "  Fixed bug.\n".data, "\n".data] : List Line).set i nl ∧
        ∀ j, j ≠ i →
          (["1.2.3\t2024-05-01\n".data, "  Fixed bug.\n".data, "\n".data] : List Line)[j]? =
          (["1.2.3\tUNRELEASED\n".data, "  Fixed bug.\n".data, "\n".data] : List Line)[j]?) ∧
    ((["1.3.0 (UNRELEASED)\n".data, "\n".data, "1.2.3 (2024-05-01)\n".data] : List Line).length =
        (["1.2.3 (2024-05-01)\n".data] : List Line).length + 2 ∧
      ∃ i ins, skip_header ["1.2.3 (2024-05-01)\n".data] = some i ∧ List.length ins = 2 ∧
        ["1.3.0 (UNRELEASED)\n".data, "\n".data, "1.2.3 (2024-05-01)\n".data] =
          (["1.2.3 (2024-05-01)\n".data] : List Line).take i ++ ins ++
            (["1.2.3 (2024-05-01)\n".data] : List Line).drop i ∧
        (∀ j, j < i →
          (["1.3.0 (UNRELEASED)\n".data, "\n".data, "1.2.3 (2024-05-01)\n".data] : List Line)[j]? =
          (["1.2.3 (2024-05-01)\n".data] : List Line)[j]?) ∧
        (∀ j, i ≤ j →
          (["1.3.0 (UNRELEASED)\n".data, "\n".data, "1.2.3 (2024-05-01)\n".data] : List Line)[j + 2]? =
          (["1.2.3 (2024-05-01)\n".data] : List Line)[j]?)) :=
  c6_frame_effects
    ["1.2.3\tUNRELEASED\n".data, "  Fixed bug.\n".data, "\n".data]
    ["1.2.3 (2024-05-01)\n".data]
    ["1.2.3\t2024-05-01\n".data, "  Fixed bug.\n".data, "\n".data]
    ["1.3.0 (UNRELEASED)\n".data, "\n".data, "1.2.3 (2024-05-01)\n".data]
    ("  Fixed bug.\n\n".data) ("1.2.3".data) ("1.3.0".data) ⟨2024, 5, 1⟩
    (by decide) (by decide)

/-- C7: on every failing invocation of `mark_released`, `add_pending` or
`find_pending`, the Tree trace contains no write (the write-back is issued
only after all preconditions passed), so replaying the trace leaves the file
content unchanged. -/
theorem c7_no_write_on_failure
    (path : String) (l1 l2 l3 : List Line) (ev nv : Line) (rd : PDate)
    (e1 e2 e3 : NewsError)
    (h1 : news_mark_released l1 ev rd = .error e1)
    (h2 : news_add_pending l2 nv = .error e2)
    (_h3 : news_find_pending l3 = .error e3) :
    ((markReleasedOps path l1 ev rd).all (fun op => !isWrite op) = true ∧
      applyTrace l1.flatten (markReleasedOps path l1 ev rd) = l1.flatten) ∧
    ((addPendingOps path l2 nv).all (fun op => !isWrite op) = true ∧
      applyTrace l2.flatten (addPendingOps path l2 nv) = l2.flatten) ∧
    ((findPendingOps path l3).all (fun op => !isWrite op) = true ∧
      applyTrace l3.flatten (findPendingOps path l3) = l3.flatten) := by
  unfold markReleasedOps addPendingOps findPendingOps
  rw [h1, h2]
  simp [applyTrace, isWrite]

/-- C7 witness: no write happens on a `NoUnreleasedChanges` failure of
`mark_released`, a `PendingExists` failure of `add_pending`, and a
`NoUnreleasedChanges` failure of `find_pending`, at concrete documents. -/
theorem c7_no_write_on_failure_witness :
    ((markReleasedOps "NEWS" ["1.0 (2024-01-01)\n".data] ("1.0".data) ⟨2024, 1, 2⟩).all
        (fun op => !isWrite op) = true ∧
      applyTrace (["1.0 (2024-01-01)\n".data] : List Line).flatten
        (markReleasedOps "NEWS" ["1.0 (2024-01-01)\n".data] ("1.0".data) ⟨2024, 1, 2⟩) =
        (["1.0 (2024-01-01)\n".data] : List Line).flatten) ∧
    ((addPendingOps "NEWS" ["1.0\tUNRELEASED\n".data] ("1.1".data)).all
        (fun op => !isWrite op) = true ∧
      applyTrace (["1.0\tUNRELEASED\n".data] : List Line).flatten
        (addPendingOps "NEWS" ["1.0\tUNRELEASED\n".data] ("1.1".data)) =
        (["1.0\tUNRELEASED\n".data] : List Line).flatten) ∧
    ((findPendingOps "NEWS" ["2.0 (2023-01-01)\n".data]).all
        (fun op => !isWrite op) = true ∧
      applyTrace (["2.0 (2023-01-01)\n".data] : List Line).flatten
        (findPendingOps "NEWS" ["2.0 (2023-01-01)\n".data]) =
        (["2.0 (2023-01-01)\n".data] : List Line).flatten) :=
  c7_no_write_on_failure "NEWS" ["1.0 (2024-01-01)\n".data] ["1.0\tUNRELEASED\n".data]
    ["2.0 (2023-01-01)\n".data] ("1.0".data) ("1.1".data) ⟨2024, 1, 2⟩
    .noUnreleasedChanges (.pendingExists ("1.0".data) (some ("UNRELEASED".data)))
    .noUnreleasedChanges (by decide) (by decide) (by decide)

/-- C10: `find_pending` and `validate` never write to the document: their only
Tree interaction is the initial read, so replaying each trace leaves the file
content identical, whatever the document and the outcome. -/
theorem c10_find_pending_validate_read_only (path : String) (lines : List Line) :
    (findPendingOps path lines).all (fun op => !isWrite op) = true ∧
    (validateOps path lines).all (fun op => !isWrite op) = true ∧
    applyTrace lines.flatten (findPendingOps path lines) = lines.flatten ∧
    applyTrace lines.flatten (validateOps path lines) = lines.flatten := by
  simp [findPendingOps, validateOps, applyTrace, isWrite]

/-- Soundness of the blank-skipping loop of `skip_header`: when it returns an
index, every line from the start index up to it (exclusive) is
whitespace-only, and the line at the returned index exists and is not. -/
theorem skip_blanks_spec (ls : List Line) (start j : Nat)
    (h : skip_blanks ls start = some j) :
    start ≤ j ∧
    (∀ k, start ≤ k → k < j → ∃ l, ls[k - start]? = some l ∧ (strip l).isEmpty = true) ∧
    (∃ l, ls[j - start]? = some l ∧ (strip l).isEmpty = false) := by
  induction ls generalizing start with
  | nil => simp [skip_blanks] at h
  | cons l rest ih =>
    simp only [skip_blanks] at h
    by_cases hb : (strip l).isEmpty = true
    · rw [if_pos hb] at h
      obtain ⟨hle, hblank, hstop⟩ := ih (start + 1) h
      refine ⟨by omega, ?_, ?_⟩
      · intro k hk1 hk2
        by_cases hk : k = start
        · subst hk
          exact ⟨l, by simp, hb⟩
        · obtain ⟨l2, hg, hb2⟩ := hblank k (by omega) hk2
          refine ⟨l2, ?_, hb2⟩
          have he : k - start = (k - (start + 1)) + 1 := by omega
          rw [he, List.getElem?_cons_succ]
          exact hg
      · obtain ⟨l2, hg, hb2⟩ := hstop
        refine ⟨l2, ?_, hb2⟩
        have he : j - start = (j - (start + 1)) + 1 := by omega
        rw [he, List.getElem?_cons_succ]
        exact hg
    · rw [if_neg hb] at h
      injection h with h
      subst h
      refine ⟨Nat.le_refl _, by omega, l, by simp, by simpa using hb⟩

/-- C8 counterexample: the claim says the header skipper advances past an
underline consisting of repeated `=` characters.  The code only skips a
second line that starts with at least six `=` characters, so on
`["Changelog for x\n", "===\n", "1.0 2024-01-01\n"]` it returns index 1 (the
three-character underline is treated as the version entry), not index 2. -/
theorem c8_counterexample :
    skip_header ["Changelog for x\n".data, "===\n".data, "1.0 2024-01-01\n".data] =
      some 1 ∧
    (strip ("===\n".data)).all (fun c => c == '=') = true ∧
    (strip ("===\n".data)).isEmpty = false ∧
    ¬ skip_header ["Changelog for x\n".data, "===\n".data, "1.0 2024-01-01\n".data] =
      some 2 := by decide

/-- Unfolding `skip_header` on a document with at least two lines. -/
theorem skip_header_cons_cons (l0 l1 : Line) (rest2 : List Line) :
    skip_header (l0 :: l1 :: rest2) =
      if ("Changelog for ".data).isPrefixOf l0 then
        if ("======".data).isPrefixOf l1 then skip_blanks rest2 2
        else skip_blanks (l1 :: rest2) 1
      else some 0 := rfl

/-- Unfolding `skip_header` on a one-line document. -/
theorem skip_header_singleton (l0 : Line) :
    skip_header [l0] =
      if ("Changelog for ".data).isPrefixOf l0 then none else some 0 := rfl

/-- When line 0 lacks the title prefix, `skip_header` returns 0. -/
theorem skip_header_no_title (l0 : Line) (rest : List Line)
    (hp : ("Changelog for ".data).isPrefixOf l0 = false) :
    skip_header (l0 :: rest) = some 0 := by
  cases rest with
  | nil => rw [skip_header_singleton, if_neg (by simp [hp])]
  | cons l1 rest2 => rw [skip_header_cons_cons, if_neg (by simp [hp])]

/-- C8 (amended): if line 0 begins with `"Changelog for "`, `skip_header`
advances past that title line, past a following line beginning with six `=`
characters if present, and past the subsequent run of whitespace-only lines,
returning the index of the first non-blank line after those; if line 0 does
not begin with that prefix, the returned index is 0. -/
theorem c8_skip_header_characterization (l0 : Line) (rest : List Line) (j : Nat)
    (h : skip_header (l0 :: rest) = some j) :
    if ("Changelog for ".data).isPrefixOf l0 then
      ∃ l1 rest2, rest = l1 :: rest2 ∧
        (let start := if ("======".data).isPrefixOf l1 then 2 else 1
         start ≤ j ∧
         (∀ k, start ≤ k → k < j →
            ∃ l, (l0 :: rest)[k]? = some l ∧ (strip l).isEmpty = true) ∧
         (∃ l, (l0 :: rest)[j]? = some l ∧ (strip l).isEmpty = false))
    else j = 0 := by
  cases hp : ("Changelog for ".data).isPrefixOf l0 with
  | false =>
    rw [if_neg (by simp)]
    rw [skip_header_no_title l0 rest hp] at h
    injection h with h
    exact h.symm
  | true =>
    rw [if_pos rfl]
    cases rest with
    | nil => rw [skip_header_singleton, if_pos hp] at h; cases h
    | cons l1 rest2 =>
      rw [skip_header_cons_cons, if_pos hp] at h
      refine ⟨l1, rest2, rfl, ?_⟩
      cases hu : ("======".data).isPrefixOf l1 with
      | true =>
        rw [if_pos hu] at h
        obtain ⟨hle, hblank, hstop⟩ := skip_blanks_spec rest2 2 j h
        refine ⟨hle, ?_, ?_⟩
        · intro k hk1 hk2
          have hk3 : 2 ≤ k := hk1
          obtain ⟨l, hg, hb⟩ := hblank k hk1 hk2
          refine ⟨l, ?_, hb⟩
          have he : k = (k - 2) + 1 + 1 := by omega
          rw [he, List.getElem?_cons_succ, List.getElem?_cons_succ]
          exact hg
        · obtain ⟨l, hg, hb⟩ := hstop
          refine ⟨l, ?_, hb⟩
          have he : j = (j - 2) + 1 + 1 := by omega
          rw [he, List.getElem?_cons_succ, List.getElem?_cons_succ]
          exact hg
      | false =>
        have hu2 : ¬(("======".data).isPrefixOf l1 = true) := by
          rw [hu]; intro hc; cases hc
        rw [if_neg hu2] at h
        obtain ⟨hle, hblank, hstop⟩ := skip_blanks_spec (l1 :: rest2) 1 j h
        refine ⟨hle, ?_, ?_⟩
        · intro k hk1 hk2
          have hk3 : 1 ≤ k := hk1
          obtain ⟨l, hg, hb⟩ := hblank k hk1 hk2
          refine ⟨l, ?_, hb⟩
          have he : k = (k - 1) + 1 := by omega
          rw [he, List.getElem?_cons_succ]
          exact hg
        · obtain ⟨l, hg, hb⟩ := hstop
          refine ⟨l, ?_, hb⟩
          have he : j = (j - 1) + 1 := by omega
          rw [he, List.getElem?_cons_succ]
          exact hg

/-- C8 witness: the amended characterization at the concrete document
`["Changelog for x\n", "======\n", "\n", "1.0 (2024-01-01)\n"]`, where
`skip_header` returns index 3. -/
theorem c8_skip_header_witness :
    if ("Changelog for ".data).isPrefixOf ("Changelog for x\n".data) then
      ∃ l1 rest2,
        (["======\n".data, "\n".data, "1.0 (2024-01-01)\n".data] : List Line) =
          l1 :: rest2 ∧
        (let start := if ("======".data).isPrefixOf l1 then 2 else 1
         start ≤ 3 ∧
         (∀ k, start ≤ k → k < 3 →
            ∃ l, (("Changelog for x\n".data) ::
              ["======\n".data, "\n".data, "1.0 (2024-01-01)\n".data])[k]? = some l ∧
              (strip l).isEmpty = true) ∧
         (∃ l, (("Changelog for x\n".data) ::
            ["======\n".data, "\n".data, "1.0 (2024-01-01)\n".data])[3]? = some l ∧
            (strip l).isEmpty = false))
    else 3 = 0 :=
  c8_skip_header_characterization ("Changelog for x\n".data)
    ["======\n".data, "\n".data, "1.0 (2024-01-01)\n".data] 3 (by decide)

/-- C9: when the version token of a header line is neither `UNRELEASED` nor
`%(version)s` and fails the digits-and-dots pattern, `parse_version_line`
fails with the malformed-version signal carrying exactly that token. -/
theorem c9_malformed_version_fails (line : Line)
    (h1 : version_token line ≠ "UNRELEASED".data)
    (h2 : version_token line ≠ "%(version)s".data)
    (h3 : versionPattern (version_token line) = false) :
    parse_version_line line = .error (version_token line) := by
  have hcv : check_version (version_token line) = .error (version_token line) := by
    unfold check_version
    have hb : (version_token line == "UNRELEASED".data ||
        version_token line == "%(version)s".data) = false := by
      simp [h1, h2]
    rw [hb]
    rw [if_neg (by intro hc; cases hc)]
    rw [if_neg (by rw [h3]; intro hc; cases hc)]
  by_cases ht : (strip line).contains '\t' = true
  · have htok : version_token line = (splitFirst '\t' (strip line)).1 := by
      unfold version_token
      rw [if_pos ht]
    rw [htok] at hcv ⊢
    simp only [parse_version_line]
    rw [if_pos ht, hcv]
  · by_cases hs : (strip line).contains ' ' = true
    · have htok : version_token line = (splitFirst ' ' (strip line)).1 := by
        unfold version_token
        rw [if_neg ht, if_pos hs]
      rw [htok] at hcv ⊢
      simp only [parse_version_line]
      rw [if_neg ht, if_pos hs, hcv]
    · have htok : version_token line = strip line := by
        unfold version_token
        rw [if_neg ht, if_neg hs]
      rw [htok] at hcv ⊢
      simp only [parse_version_line]
      rw [if_neg ht, if_neg hs, hcv]

/-- C9 witness: the header line `"banana\n"` fails with the malformed-version
signal carrying `"banana"`. -/
theorem c9_malformed_version_witness :
    parse_version_line ("banana\n".data) =
      .error (version_token ("banana\n".data)) ∧
    version_token ("banana\n".data) = "banana".data :=
  ⟨c9_malformed_version_fails ("banana\n".data) (by decide) (by decide) (by decide),
   by decide⟩
